import Mathlib

/-!
Verification development for the rust-tftp repository.

The relevant parts of the Rust sources (src/header.rs, src/send.rs,
src/receive.rs, src/client.rs) are shallowly embedded below.  Bytes are
modelled as natural numbers (every value produced by the embedding of an
encoder is < 256), byte strings as `List ℕ`, `Duration`/`Instant` as
nanosecond counts (`ℕ`), Rust `BitSet` values as `Finset ℕ`, and
`HashMap<usize, Instant>` as an association list.  A Rust function that can
panic through an out-of-bounds slice index is modelled with an explicit
`oob` result value.
-/

namespace Tftp

/-- header.rs: `MAX_DATA_LEN` (512). -/
def MAX_DATA_LEN : ℕ := 512

/-- client.rs line 17: `const MAX_ATTEMPTS: u32 = 4;` (note: the value in the
source is 4, not 8). -/
def MAX_ATTEMPTS : ℕ := 4

/-- header.rs opcode constants. -/
def OPCODE_RRQ : ℕ := 1

def OPCODE_WRQ : ℕ := 2

def OPCODE_DATA : ℕ := 3

def OPCODE_ACK : ℕ := 4

def OPCODE_ERROR : ℕ := 5

/-- error.rs `TFTPError`, restricted to the decode-relevant variants.  The
`Box<[u8]>` payloads of `InvalidFilename` / `InvalidMode` are kept as byte
lists; the `FromUtf8Error` payload of `InvalidUnicodeString` is dropped. -/
inductive TFTPErr where
  | InvalidHeaderLen
  | EmptyFilename
  | InvalidFilename (bytes : List ℕ)
  | EmptyMode
  | InvalidMode (bytes : List ℕ)
  | InvalidUnicodeString
deriving DecidableEq, Repr

/-- Result of running a decoder: a decoded value, a returned `TFTPError`, or a
Rust panic caused by an out-of-bounds slice index (`src[i]` with
`i >= src.len()`). -/
inductive DecodeResult (α : Type) where
  | ok (a : α)
  | err (e : TFTPErr)
  | oob
deriving DecidableEq, Repr

/-- header.rs `RWMode`. -/
inductive RWMode where
  | Mail
  | NetASCII
  | Octet
deriving DecidableEq, Repr

/-- ASCII lower-casing of one byte.  The source calls
`str::to_lowercase` on the candidate mode string; on ASCII bytes (which is all
that the three recognized mode strings, and hence every encoder output,
contain) Unicode lower-casing coincides with this byte-wise map. -/
def asciiLower (b : ℕ) : ℕ := if 65 ≤ b ∧ b ≤ 90 then b + 32 else b

/-- header.rs `RWMode::from_str`: lowercase the string and compare with
"mail" / "netascii" / "octet". -/
def rwModeFromBytes (bs : List ℕ) : Option RWMode :=
  let l := bs.map asciiLower
  if l = [109, 97, 105, 108] then some RWMode.Mail
  else if l = [110, 101, 116, 97, 115, 99, 105, 105] then some RWMode.NetASCII
  else if l = [111, 99, 116, 101, 116] then some RWMode.Octet
  else none

/-- header.rs `impl Into<&'static [u8]> for RWMode`: the byte string of each
mode ("mail", "netascii", "octet"). -/
def rwModeBytes : RWMode → List ℕ
  | RWMode.Mail => [109, 97, 105, 108]
  | RWMode.NetASCII => [110, 101, 116, 97, 115, 99, 105, 105]
  | RWMode.Octet => [111, 99, 116, 101, 116]

/-- Whether a byte is a UTF-8 continuation byte (0x80..0xBF). -/
def utf8Cont (b : ℕ) : Bool := 128 ≤ b && b ≤ 191

/-- UTF-8 validity of a byte string; models Rust's `String::from_utf8`
succeeding.  Follows the byte-sequence table of RFC 3629, which is exactly
what Rust's validator accepts. -/
def validUtf8 : List ℕ → Bool
  | [] => true
  | b :: rest =>
    if b ≤ 127 then validUtf8 rest
    else if 194 ≤ b ∧ b ≤ 223 then
      match rest with
      | c :: r => utf8Cont c && validUtf8 r
      | [] => false
    else if b = 224 then
      match rest with
      | c :: d :: r => (160 ≤ c && c ≤ 191) && utf8Cont d && validUtf8 r
      | _ => false
    else if (225 ≤ b ∧ b ≤ 236) ∨ b = 238 ∨ b = 239 then
      match rest with
      | c :: d :: r => utf8Cont c && utf8Cont d && validUtf8 r
      | _ => false
    else if b = 237 then
      match rest with
      | c :: d :: r => (128 ≤ c && c ≤ 159) && utf8Cont d && validUtf8 r
      | _ => false
    else if b = 240 then
      match rest with
      | c :: d :: e :: r => (144 ≤ c && c ≤ 191) && utf8Cont d && utf8Cont e && validUtf8 r
      | _ => false
    else if 241 ≤ b ∧ b ≤ 243 then
      match rest with
      | c :: d :: e :: r => utf8Cont c && utf8Cont d && utf8Cont e && validUtf8 r
      | _ => false
    else if b = 244 then
      match rest with
      | c :: d :: e :: r => (128 ≤ c && c ≤ 143) && utf8Cont d && utf8Cont e && validUtf8 r
      | _ => false
    else false

/-- header.rs `RWHeader<T>`: filename (the UTF-8 bytes of the Rust `String`)
and transfer mode.  The phantom request-type parameter of the source becomes
the explicit opcode argument of the encode/decode functions. -/
structure RWHeaderP where
  filename : List ℕ
  mode : RWMode
deriving DecidableEq, Repr

/-- header.rs `impl Into<RawRequest> for RWHeader`:
`[0, opcode, filename…, 0, mode…, 0]`. -/
def rwIntoRaw (op : ℕ) (h : RWHeaderP) : List ℕ :=
  0 :: op :: (h.filename ++ 0 :: (rwModeBytes h.mode ++ [0]))

/-- The filename loop of `RWHeader::from_raw` (header.rs lines 226-239),
expressed on the suffix of `src` starting at index `i`:
if `src[i] == 0` stop (the rest after the null is returned for the mode scan);
otherwise push the byte and, `if i == src.len()` after the increment, return
`InvalidFilename`.  An empty suffix at the loop head corresponds to `src[i]`
with `i ≥ src.len()`, a Rust index panic (`oob`) — unreachable from
`from_raw`, which enters the loop at `i = 2 < src.len()`. -/
def fnLoop (src : List ℕ) : List ℕ → List ℕ → DecodeResult (List ℕ × List ℕ)
  | _acc, [] => DecodeResult.oob
  | acc, b :: rest =>
    if b = 0 then DecodeResult.ok (acc.reverse, rest)
    else if rest = [] then DecodeResult.err (TFTPErr.InvalidFilename src)
    else fnLoop src (b :: acc) rest

/-- The mode loop of `RWHeader::from_raw` (header.rs lines 242-250):
`loop { if src[i] == 0 break; else if src.len() <= i return InvalidMode; push; }`.
Because `src[i]` is evaluated before the bounds test, the
`src.len() <= i` arm is unreachable: when the suffix is empty the indexing
itself panics, which is the `oob` case below. -/
def modeLoop (src : List ℕ) : List ℕ → List ℕ → DecodeResult (List ℕ)
  | _acc, [] => DecodeResult.oob
  | acc, b :: rest =>
    if b = 0 then DecodeResult.ok acc.reverse
    else modeLoop src (b :: acc) rest

/-- header.rs `RWHeader::from_raw` (release semantics: the two
`debug_assert!`s on `src[0]` / `src[1]` are compiled out). -/
def rwFromRaw (_op : ℕ) (src : List ℕ) : DecodeResult RWHeaderP :=
  if src.length < 6 then DecodeResult.err TFTPErr.InvalidHeaderLen
  else if src.getD 2 0 = 0 then DecodeResult.err TFTPErr.EmptyFilename
  else
    match fnLoop src [] (src.drop 2) with
    | DecodeResult.oob => DecodeResult.oob
    | DecodeResult.err e => DecodeResult.err e
    | DecodeResult.ok (fnBytes, rest) =>
      match modeLoop src [] rest with
      | DecodeResult.oob => DecodeResult.oob
      | DecodeResult.err e => DecodeResult.err e
      | DecodeResult.ok modeBytes =>
        if modeBytes.length = 0 then DecodeResult.err TFTPErr.EmptyMode
        else if validUtf8 fnBytes = false then DecodeResult.err TFTPErr.InvalidUnicodeString
        else if validUtf8 modeBytes = false then DecodeResult.err TFTPErr.InvalidUnicodeString
        else
          match rwModeFromBytes modeBytes with
          | some m => DecodeResult.ok ⟨fnBytes, m⟩
          | none => DecodeResult.err (TFTPErr.InvalidMode src)

/-- header.rs `DataHeader`: a 512-byte buffer `data` (zero-padded past
`data_len`), the used length `data_len`, and the 24-bit `block_number`. -/
structure DataHeaderP where
  data : List ℕ
  dataLen : ℕ
  blockNumber : ℕ
deriving DecidableEq, Repr

/-- header.rs `DataHeader::new` for a payload of at most `MAX_DATA_LEN`
bytes: the payload copied into a zero-filled 512-byte buffer. -/
def dataHeaderNew (payload : List ℕ) (bn : ℕ) : DataHeaderP :=
  ⟨payload ++ List.replicate (MAX_DATA_LEN - payload.length) 0,
   min payload.length MAX_DATA_LEN, bn⟩

/-- header.rs `DataHeader::new_empty`. -/
def dataHeaderNewEmpty (bn : ℕ) : DataHeaderP :=
  ⟨List.replicate MAX_DATA_LEN 0, 0, bn⟩

/-- Big-endian reconstruction of the 24-bit block number from the three
header bytes.  The source ors together `src[0] << 16`, `src[2] << 8` and
`src[3]`; on `u8` values the three summands occupy disjoint bit ranges, so
the bitwise or equals this arithmetic sum. -/
def beBlockNumber (b2 b1 b0 : ℕ) : ℕ := b2 * 65536 + b1 * 256 + b0

/-- header.rs `impl Into<RawRequest> for DataHeader`:
`[bn >> 16, 0x03, bn >> 8, bn, payload…]` with each stored byte truncated to
`u8` (`% 256`). -/
def dataIntoRaw (h : DataHeaderP) : List ℕ :=
  (h.blockNumber >>> 16) % 256 :: OPCODE_DATA :: (h.blockNumber >>> 8) % 256 ::
    h.blockNumber % 256 :: h.data.take h.dataLen

/-- header.rs `DataHeader::from_raw` (release semantics; the
`debug_assert!(src[1] == OPCODE_DATA)` is compiled out).  `data` receives
`min (len - 4) 512` payload bytes, zero-padded to 512; `data_len` is
`src.len() - 4`. -/
def dataFromRaw (src : List ℕ) : DecodeResult DataHeaderP :=
  if src.length < 4 then DecodeResult.err TFTPErr.InvalidHeaderLen
  else
    let bn := beBlockNumber (src.getD 0 0) (src.getD 2 0) (src.getD 3 0)
    let copied := min (src.length - 4) MAX_DATA_LEN
    DecodeResult.ok
      ⟨(src.drop 4).take copied ++ List.replicate (MAX_DATA_LEN - copied) 0,
       src.length - 4, bn⟩

/-- header.rs `AckHeader`. -/
structure AckHeaderP where
  blockNumber : ℕ
deriving DecidableEq, Repr

/-- header.rs `impl Into<RawRequest> for AckHeader`. -/
def ackIntoRaw (a : AckHeaderP) : List ℕ :=
  [(a.blockNumber >>> 16) % 256, OPCODE_ACK, (a.blockNumber >>> 8) % 256,
   a.blockNumber % 256]

/-- header.rs `AckHeader::from_raw` (release semantics; both
`debug_assert!`s compiled out). -/
def ackFromRaw (src : List ℕ) : DecodeResult AckHeaderP :=
  if src.length < 4 then DecodeResult.err TFTPErr.InvalidHeaderLen
  else DecodeResult.ok ⟨beBlockNumber (src.getD 0 0) (src.getD 2 0) (src.getD 3 0)⟩

/-- header.rs `ErrorCode` (`#[repr(u16)]`, values 0..7). -/
inductive ErrorCode where
  | Undefined
  | FileNotFound
  | AccessViolation
  | DiskFull
  | IllegalOperation
  | UnknownTransferID
  | FileAlreadyExists
  | NoSuchUser
deriving DecidableEq, Repr

/-- The `u16` discriminant of an `ErrorCode`. -/
def ErrorCode.toNat : ErrorCode → ℕ
  | ErrorCode.Undefined => 0
  | ErrorCode.FileNotFound => 1
  | ErrorCode.AccessViolation => 2
  | ErrorCode.DiskFull => 3
  | ErrorCode.IllegalOperation => 4
  | ErrorCode.UnknownTransferID => 5
  | ErrorCode.FileAlreadyExists => 6
  | ErrorCode.NoSuchUser => 7

/-- header.rs `impl From<u16> for ErrorCode`: values below 8 map to the
matching variant (the source transmutes), anything at or above 8 maps to
`Undefined`. -/
def ErrorCode.ofU16 : ℕ → ErrorCode
  | 0 => ErrorCode.Undefined
  | 1 => ErrorCode.FileNotFound
  | 2 => ErrorCode.AccessViolation
  | 3 => ErrorCode.DiskFull
  | 4 => ErrorCode.IllegalOperation
  | 5 => ErrorCode.UnknownTransferID
  | 6 => ErrorCode.FileAlreadyExists
  | 7 => ErrorCode.NoSuchUser
  | _ => ErrorCode.Undefined

/-- header.rs `ErrorHeader`: error code and the UTF-8 bytes of the message
string. -/
structure ErrorHeaderP where
  errorCode : ErrorCode
  errorMessage : List ℕ
deriving DecidableEq, Repr

/-- header.rs `impl Into<RawRequest> for ErrorHeader`:
`[0, 0x05, code >> 8, code & 0xFF, message…, 0]`. -/
def errorIntoRaw (e : ErrorHeaderP) : List ℕ :=
  0 :: OPCODE_ERROR :: (e.errorCode.toNat >>> 8) % 256 :: e.errorCode.toNat % 256 ::
    (e.errorMessage ++ [0])

/-- The message loop of `ErrorHeader::from_raw` (header.rs lines 510-515):
`while src[4 + i] != 0 { push; i += 1 }`, expressed on the suffix of `src`
starting at index `4 + i`.  There is no bounds test at all, so running past
the end of the buffer (`oob`) is possible on any input whose message is not
null-terminated. -/
def errLoop : List ℕ → List ℕ → DecodeResult (List ℕ)
  | _acc, [] => DecodeResult.oob
  | acc, b :: rest =>
    if b = 0 then DecodeResult.ok acc.reverse
    else errLoop (b :: acc) rest

/-- header.rs `ErrorHeader::from_raw` (release semantics; the two
`debug_assert!`s compiled out).  The error code is
`((src[2] as u16) << 8) | src[3]`, which on `u8` values equals the arithmetic
sum below. -/
def errorFromRaw (src : List ℕ) : DecodeResult ErrorHeaderP :=
  if src.length < 5 then DecodeResult.err TFTPErr.InvalidHeaderLen
  else
    let code := ErrorCode.ofU16 ((src.getD 2 0) * 256 + src.getD 3 0)
    match errLoop [] (src.drop 4) with
    | DecodeResult.oob => DecodeResult.oob
    | DecodeResult.err e => DecodeResult.err e
    | DecodeResult.ok msg =>
      if validUtf8 msg then DecodeResult.ok ⟨code, msg⟩
      else DecodeResult.err TFTPErr.InvalidUnicodeString

/-! Send engine (src/send.rs).  The source file is modelled as the byte list
of its contents; `Instant`s and `Duration`s are nanosecond counts. -/

/-- send.rs `SendFile::new` / `new_server` (lines 95, 120):
`num_blocks = file_len / MAX_DATA_LEN + (if file_len & (MAX_DATA_LEN-1) == 0 then 0 else 1)`. -/
def numBlocks (fileLen : ℕ) : ℕ :=
  fileLen / MAX_DATA_LEN + (if fileLen &&& (MAX_DATA_LEN - 1) = 0 then 0 else 1)

/-- send.rs `SendFile::new` (line 93): the construction-time size check.
Returns `true` when the constructor rejects the file.  Note the comparison is
strict: `file_len > (1 << 24) * MAX_DATA_LEN`. -/
def sendFileSizeRejected (fileLen : ℕ) : Bool :=
  decide (fileLen > (1 <<< 24) * MAX_DATA_LEN)

/-- A DATA block queued by the sender: block number and payload bytes. -/
structure SBlock where
  blockNumber : ℕ
  payload : List ℕ
deriving DecidableEq, Repr

/-- send.rs `SendFile::get_block_n`: `None` if `block_number ≥ num_blocks`;
the final block carries the tail `file_len - block_number * MAX_DATA_LEN`
bytes, every other block a full 512 bytes read at offset
`block_number * MAX_DATA_LEN`. -/
def getBlockN (file : List ℕ) (bn : ℕ) : Option SBlock :=
  let numB := numBlocks file.length
  if bn ≥ numB then none
  else if bn = numB - 1 then
    some ⟨bn, (file.drop (bn * MAX_DATA_LEN)).take (file.length - bn * MAX_DATA_LEN)⟩
  else
    some ⟨bn, (file.drop (bn * MAX_DATA_LEN)).take MAX_DATA_LEN⟩

/-- send.rs `SendFile::next_block` with `next_to_send = nts` (the source also
increments `next_to_send`; here the successive values of `nts` are supplied
by the iteration in `producedBlocks`).  The extra empty terminator is
produced when `nts == num_blocks && file_len / MAX_DATA_LEN == num_blocks`,
i.e. exactly when `file_len` is a multiple of 512. -/
def nextBlockAt (file : List ℕ) (nts : ℕ) : Option SBlock :=
  if nts < numBlocks file.length then getBlockN file nts
  else if nts = numBlocks file.length ∧
          file.length / MAX_DATA_LEN = numBlocks file.length then
    some ⟨nts, []⟩
  else none

/-- The complete sequence of DATA blocks produced by repeatedly calling
`next_block` from `next_to_send = 0` until it returns `None`.  `next_block`
yields `Some` for `nts < num_blocks`, at `nts = num_blocks` exactly when the
length is a multiple of 512, and `None` for every larger `nts`, so the range
`0 .. num_blocks` (inclusive) covers every produced block. -/
def producedBlocks (file : List ℕ) : List SBlock :=
  (List.range (numBlocks file.length + 1)).filterMap (nextBlockAt file)

/-- send.rs `SendFile::update_average_rtt` (line 298):
`average_rtt = rtt/16 + average_rtt*15/16` (durations in nanoseconds,
`Duration` division truncates). -/
def updateAverageRtt (old rtt : ℕ) : ℕ := rtt / 16 + old * 15 / 16

/-- The ACK-handling state of send.rs `SendFile`: the pending-ACK bit set,
the `send_times` map (association list from block index to send instant),
the RTT EWMA, and whether `try_again` holds a packet.  The fields not
involved in ACK handling (socket, mmap, timeout priority queue, counters)
are omitted. -/
structure SState where
  pendingAcks : Finset ℕ
  sendTimes : List (ℕ × ℕ)
  averageRtt : ℕ
  tryAgain : Bool
deriving DecidableEq

/-- send.rs `SendFile::new` (line 104): `blocks_pending_acks` is initialized
to a bit set of size `num_blocks` with every bit set. -/
def initialPending (numB : ℕ) : Finset ℕ := Finset.range numB

/-- The send-engine state right after construction: all blocks pending, no
send times recorded, `average_rtt` = 1 s, nothing queued for retry. -/
def initialSState (numB : ℕ) : SState :=
  ⟨initialPending numB, [], 1000000000, false⟩

/-- send.rs `SendFile::handle_ack` (lines 237-245): remove exactly
`ack.block_number` from `blocks_pending_acks`; if `send_times` holds an entry
for that block, remove it and feed `now - send_time` (`instant.elapsed()`)
into the RTT EWMA; otherwise (a duplicate ACK) leave the EWMA alone. -/
def handleAck (now : ℕ) (s : SState) (b : ℕ) : SState :=
  let pending := s.pendingAcks.erase b
  match s.sendTimes.lookup b with
  | some t =>
    { s with pendingAcks := pending,
             sendTimes := s.sendTimes.filter (fun p => p.1 != b),
             averageRtt := updateAverageRtt s.averageRtt (now - t) }
  | none => { s with pendingAcks := pending }

/-- send.rs `SendFile::poll` (line 315): the engine reports
`Ready` when `blocks_pending_acks.is_empty() && try_again.is_none()`. -/
def sendReady (s : SState) : Bool :=
  decide (s.pendingAcks = ∅) && !s.tryAgain

/-- The possible results of one `receive_header` call, as seen by
send.rs `SendFile::init`: an I/O error, no header (lock failure or a
non-I/O receive error such as `WrongHost`), or one of the header kinds. -/
inductive RecvOutcome where
  | ioErr
  | nothing
  | ack (b : ℕ)
  | dataH
  | errH
  | readH
  | writeH
  | invalidH
deriving DecidableEq, Repr

/-- Result of send-engine client initialization. -/
inductive InitResult where
  | proceeds
  | invalidData
deriving DecidableEq, Repr

/-- send.rs `SendFile::init` (lines 160-175), the ACK-await part: a single
`receive_header` call is made; unless it returns `Ok(Some(Header::Ack(_)))`
the function immediately returns an `InvalidData` error ("Did not receive an
ACK for the write request.").  There is no retry loop. -/
def clientInit (r : RecvOutcome) : InitResult :=
  match r with
  | RecvOutcome.ack _ => InitResult.proceeds
  | _ => InitResult.invalidData

/-- send.rs `SendFile::init` run against an oracle listing the outcomes the
socket would deliver on successive receive attempts: the source consumes
exactly the first outcome and decides from it alone; the rest of the oracle
is returned untouched. -/
def clientInitO (os : List RecvOutcome) : InitResult × List RecvOutcome :=
  match os with
  | [] => (InitResult.invalidData, [])
  | r :: rest => (clientInit r, rest)

/-! Receive engine (src/receive.rs).  Time is threaded explicitly: `gap` is
`last_time.elapsed()` at the moment `update_average` runs, and `sinceLast` is
`last_time.elapsed()` at the total-timeout test in `poll`.  The byte-for-byte
contents of the destination file are not modelled (no claim mentions them);
the mapping length `fileLen` and all control state are. -/

/-- Modelled from the spec: the constant `TOTAL_TIMEOUT` is referenced in
receive.rs line 255 but is not defined anywhere under src/; the spec sets
the total inactivity timeout to 10 seconds (§5, §6).  Nanoseconds. -/
def TOTAL_TIMEOUT : ℕ := 10000000000

/-- receive.rs `ReceiveFile::update_average` (lines 79-84).  The first
assignment overwrites `packet_time` with `elapsed * 15`; the second then
computes `elapsed/16 + packet_time*15/16` from that overwritten value, so the
previous average (the first argument) is discarded entirely. -/
def updateAverageR (_packetTime elapsed : ℕ) : ℕ :=
  let pt1 := elapsed * 15
  elapsed / 16 + pt1 * 15 / 16

/-- receive.rs `receive_header` (line 168): the socket read timeout is set to
`packet_time * 3 / 2` (an earlier `set_read_timeout(1 s)` on line 167 is
immediately overwritten). -/
def receiveTimeout (packetTime : ℕ) : ℕ := packetTime * 3 / 2

/-- The control state of receive.rs `ReceiveFile`: everything except the
socket, the raw mapping bytes, and the wall-clock fields (which are threaded
as explicit arguments). -/
structure RState where
  highestBlock : Option ℕ
  receivedLastBlock : Bool
  received : Finset ℕ
  consecRecv : Option ℕ
  fileLen : ℕ
  packetTime : ℕ
  errorCount : ℕ
deriving DecidableEq

/-- The receiver state right after `ReceiveFile::new`: one pad byte written
(`fileLen = 1`), nothing received, `packet_time` = 1 s. -/
def initialRState : RState :=
  ⟨none, false, ∅, none, 1, 1000000000, 0⟩

/-- receive.rs `ReceiveFile::handle_data` (lines 102-147), success path.
Note that `highest_block` is unconditionally overwritten with the block
number of the packet just processed, and that the file is re-truncated to
`512 * block_number + data_len` whenever the stored `highest_block` is below
the new block number or the current mapping is shorter than that length.
The byte copy into the mapping is elided (file contents are not modelled);
all state updates are kept. -/
def handleData (s : RState) (bn payloadLen : ℕ) : RState :=
  let newLen := MAX_DATA_LEN * bn + payloadLen
  let fileLen :=
    match s.highestBlock with
    | some hb => if hb < bn ∨ s.fileLen < newLen then newLen else s.fileLen
    | none => newLen
  { s with highestBlock := some bn,
           fileLen := fileLen,
           received := insert bn s.received,
           receivedLastBlock := s.receivedLastBlock || decide (payloadLen < MAX_DATA_LEN) }

/-- The forward walk of receive.rs `poll` (lines 229-236): starting from
`consec_recv = k`, advance while `received` contains the next index.  The
walk of the source is an unbounded `loop`; it can advance at most
`received.card` times (each step consumes a distinct member), so that fuel
makes the bounded recursion equal to the source loop. -/
def walkConsec (received : Finset ℕ) : ℕ → ℕ → ℕ
  | k, 0 => k
  | k, fuel + 1 => if k + 1 ∈ received then walkConsec received (k + 1) fuel else k

/-- receive.rs `poll` lines 220-238: seed `consec_recv` with 0 once block 0
is present, then walk forward through `received`. -/
def consecUpdate (received : Finset ℕ) : Option ℕ → Option ℕ
  | none => if 0 ∈ received then some (walkConsec received 0 received.card) else none
  | some k => some (walkConsec received k received.card)

/-- One receive outcome as dispatched by receive.rs `poll`: a DATA header, an
ERROR header, some other header kind, `Ok(None)` (lock failure / ignored
receive error such as `WrongHost` or a decode error), a read timeout
(`TimedOut` / `WouldBlock`), or another I/O error. -/
inductive REvent where
  | data (bn payloadLen : ℕ)
  | errPkt
  | otherHdr
  | nonePkt
  | timeoutErr
  | otherIoErr
deriving DecidableEq, Repr

/-- How one `poll` call ends. -/
inductive ROutcome where
  | ready
  | notReady
  | failed
  | crashed
deriving DecidableEq, Repr

/-- The observable result of one `poll` call: the successor state, the block
numbers of the ACKs sent during the call (in order), and the outcome. -/
structure RPoll where
  state : RState
  acks : List ℕ
  outcome : ROutcome
deriving DecidableEq

/-- The tail of receive.rs `poll` from line 255 on: total-timeout check, then
receive and dispatch.  `s` is the state after the consec_recv update and the
termination check.  On a successful receive (`data`, `errPkt`, `otherHdr`)
`receive_header` has already fed `gap` into `update_average`; on
`timeoutErr` the branch itself calls `update_average`. -/
def pollRecv (s : RState) (ev : REvent) (gap sinceLast : ℕ) : RPoll :=
  if TOTAL_TIMEOUT < sinceLast then ⟨s, [], ROutcome.failed⟩
  else
    let prevErr := s.errorCount
    let s := { s with errorCount := 0 }
    match ev with
    | REvent.data bn payloadLen =>
      let s := { s with packetTime := updateAverageR s.packetTime gap }
      ⟨handleData s bn payloadLen, [], ROutcome.notReady⟩
    | REvent.errPkt =>
      let s := { s with packetTime := updateAverageR s.packetTime gap }
      ⟨s, [], ROutcome.failed⟩
    | REvent.otherHdr =>
      let s := { s with packetTime := updateAverageR s.packetTime gap }
      ⟨s, [], ROutcome.notReady⟩
    | REvent.nonePkt => ⟨s, [], ROutcome.notReady⟩
    | REvent.timeoutErr =>
      let s := { s with packetTime := updateAverageR s.packetTime gap,
                        errorCount := prevErr + 1 }
      let acks := match s.consecRecv with
        | some k => [k]
        | none => []
      if s.errorCount > MAX_ATTEMPTS then ⟨s, acks, ROutcome.failed⟩
      else ⟨s, acks, ROutcome.notReady⟩
    | REvent.otherIoErr =>
      let s := { s with errorCount := prevErr + 1 }
      if s.errorCount > MAX_ATTEMPTS then ⟨s, [], ROutcome.failed⟩
      else ⟨s, [], ROutcome.notReady⟩

/-- receive.rs `impl Future for ReceiveFile`, `poll` (lines 217-303): update
`consec_recv`; if the final short block has been seen and every index below
`highest_block` is present, send 4 ACKs for `highest_block` and return
`Ready` (`highest_block.unwrap()` with `None` would panic — `crashed`);
otherwise check the total timeout, receive, and dispatch. -/
def pollStep (s : RState) (ev : REvent) (gap sinceLast : ℕ) : RPoll :=
  let s1 := { s with consecRecv := consecUpdate s.received s.consecRecv }
  if s1.receivedLastBlock then
    match s1.highestBlock with
    | none => ⟨s1, [], ROutcome.crashed⟩
    | some hb =>
      if (List.range hb).all (fun i => decide (i ∈ s1.received)) then
        ⟨s1, List.replicate 4 hb, ROutcome.ready⟩
      else pollRecv s1 ev gap sinceLast
  else pollRecv s1 ev gap sinceLast

/-- Whether a `poll` call on state `s` (with `sinceLast` elapsed since the
last packet) reaches the receive call: the termination branch does not fire
(and does not panic on an unset `highest_block`) and the total timeout has
not expired. -/
def reachesReceive (s : RState) (sinceLast : ℕ) : Bool :=
  (if s.receivedLastBlock then
    match s.highestBlock with
    | none => false
    | some hb => !((List.range hb).all (fun i => decide (i ∈ s.received)))
  else true) && decide (sinceLast ≤ TOTAL_TIMEOUT)

/-! Definitions written from the specification text (not from the source),
used to exhibit where source and specification disagree. -/

/-- The receive-side packet-gap EWMA as the specification words it
(§4.3: `packet_time ← gap/16 + packet_time·15/16`, "a symmetric EWMA of
inter-arrival gap", mirroring the sender's RTT update). -/
def specPacketTimeEwma (packetTime gap : ℕ) : ℕ :=
  gap / 16 + packetTime * 15 / 16

/-- Concrete send-engine state used for claim C1: a freshly constructed
sender for a two-block file (both blocks pending, window base 0), no send
times recorded. -/
def sC1 : SState := initialSState 2

/-- Send-engine state used for the C1 witness: block 1 in flight with a
recorded send time of 2 ns, `average_rtt` 10 ns. -/
def sC1w : SState := ⟨Finset.range 2, [(1, 2)], 10, false⟩

/-- Receiver state after the DATA sequence (block, payload length):
(10,100), (0,512), (1,512), (2,512), (3,512) — the short block 10 arrives
first, then blocks 0..3 in order.  Blocks 4..9 are never received. -/
def sBadR : RState :=
  [((10 : ℕ), (100 : ℕ)), (0, 512), (1, 512), (2, 512), (3, 512)].foldl
    (fun s p => handleData s p.1 p.2) initialRState

/-! Theorems. -/

/-- C6: the claim says decoding is total — every input yields a packet or a
`DecodeError` (an unterminated mode is rejected with `InvalidMode`), and no
decode path performs an out-of-bounds access.  The code disagrees: on the
RRQ `[0, 1, 'a', 0, 'o', 'c']` (filename "a", mode "oc" with no null
terminator) `RWHeader::from_raw` evaluates `src[i]` with `i = src.len()`
before its bounds test, an out-of-bounds panic, and on the ERROR
`[0, 5, 0, 0, 'A']` (message not null-terminated) `ErrorHeader::from_raw`
runs its unbounded `while src[4+i] != 0` loop off the end of the buffer. -/
theorem claim_C6 :
    rwFromRaw OPCODE_RRQ [0, 1, 97, 0, 111, 99] = DecodeResult.oob ∧
    errorFromRaw [0, 5, 0, 0, 65] = DecodeResult.oob := by
  constructor <;> rfl

/-- C7: the claim (and the spec) says construction fails exactly for
`file_len ≥ 2^24 · 512`.  The code's check is strict (`>`), so a file of
exactly `2^24 · 512` bytes is accepted; its `num_blocks` is `2^24` and, the
length being a multiple of 512, `next_block` emits the empty terminator with
block index `2^24`, whose 24-bit wire encoding is byte-for-byte identical to
that of block 0. -/
theorem claim_C7 :
    sendFileSizeRejected (2 ^ 24 * 512) = false ∧
    numBlocks (2 ^ 24 * 512) = 2 ^ 24 ∧
    (2 ^ 24 * 512) / MAX_DATA_LEN = numBlocks (2 ^ 24 * 512) ∧
    dataIntoRaw (dataHeaderNewEmpty (2 ^ 24)) = dataIntoRaw (dataHeaderNewEmpty 0) := by
  refine ⟨by decide, by decide, by decide, rfl⟩

/-- C9: the claim says `packet_time` is the EWMA
`gap/16 + packet_time·15/16`.  The code's `update_average` first overwrites
`packet_time` with `elapsed · 15` and only then applies the EWMA shape to
that overwritten value, discarding the previous average: with a previous
average of 1 s and a gap of 16 s it produces 226 s where the claimed formula
gives 1.9375 s.  (The other half of the claim — the receive timeout being
set to `packet_time · 3/2` — does match the code: `receiveTimeout`.) -/
theorem claim_C9 :
    updateAverageR 1000000000 16000000000 = 226000000000 ∧
    specPacketTimeEwma 1000000000 16000000000 = 1937500000 ∧
    updateAverageR 1000000000 16000000000 ≠
      specPacketTimeEwma 1000000000 16000000000 ∧
    receiveTimeout 1000000000 = 1500000000 := by
  refine ⟨by decide, by decide, by decide, by decide⟩

/-- C3: the claim (and the field's own doc comment) says `highest_block` is
the maximum block index seen so far, and that termination is judged against
that maximum.  The code overwrites `highest_block` with the block number of
the most recent DATA: after processing DATA(1) then DATA(0) it holds
`Some(0)`, not `Some(1)`.  Consequence: after receiving the short block 10
first and then blocks 0..3 (state `sBadR`), `highest_block` is 3 and `poll`
terminates `Ready`, sending the final ACK(3) four times, although blocks
4..9 were never received. -/
theorem claim_C3 :
    (handleData (handleData initialRState 1 512) 0 512).highestBlock = some 0 ∧
    (handleData (handleData initialRState 1 512) 0 512).highestBlock ≠ some 1 ∧
    sBadR.receivedLastBlock = true ∧
    (10 : ℕ) ∈ sBadR.received ∧ (4 : ℕ) ∉ sBadR.received ∧
    (pollStep sBadR REvent.nonePkt 0 0).outcome = ROutcome.ready ∧
    (pollStep sBadR REvent.nonePkt 0 0).acks = List.replicate 4 3 := by
  refine ⟨by decide, by decide, by decide, by decide, by decide, by decide, by decide⟩

/-- C1 counterexample: the claim says that after handling ACK(b) (with b at
or above the window base) no index ≤ b remains in `pending_acks`.  On the
freshly constructed two-block sender `sC1` (window base 0), handling ACK(1)
leaves block 0 pending. -/
theorem counterexample_C1 :
    (0 : ℕ) ≤ 1 ∧ 0 ∈ (handleAck 0 sC1 1).pendingAcks := by
  refine ⟨by decide, by decide⟩

/-- C2 counterexample: the claim says every processed DATA packet is followed
by the emission of exactly one cumulative ACK.  Processing DATA(0) (5-byte
payload) on the fresh receiver emits no ACK at all: `poll` returns
`NotReady` with an empty ACK list while the block was recorded. -/
theorem counterexample_C2 :
    (pollStep initialRState (REvent.data 0 5) 0 0).acks = [] ∧
    (pollStep initialRState (REvent.data 0 5) 0 0).state.received = {0} ∧
    (pollStep initialRState (REvent.data 0 5) 0 0).outcome = ROutcome.notReady := by
  refine ⟨by decide, by decide, by decide⟩

/-- C8 counterexample: the claim says client initialization retries the
ACK(0) receive up to MAX_ATTEMPTS = 8 times and fails only after those are
exhausted.  With an oracle whose first receive fails with an I/O error and
whose second would deliver ACK(0), `init` fails immediately with
`InvalidData`, leaving the ACK undelivered — and the source's MAX_ATTEMPTS
(client.rs line 17) is 4, not 8. -/
theorem counterexample_C8 :
    clientInitO [RecvOutcome.ioErr, RecvOutcome.ack 0] =
      (InitResult.invalidData, [RecvOutcome.ack 0]) ∧
    MAX_ATTEMPTS = 4 ∧ MAX_ATTEMPTS ≠ 8 := by
  refine ⟨by decide, by decide, by decide⟩

/-- C1 as amended: `handle_ack` removes exactly the acknowledged block
number from `pending_acks` (every other pending index, including those below
b, stays pending), and feeds `now - send_times[b]` into the RTT EWMA exactly
when `send_times` holds an entry for b (leaving the EWMA unchanged on a
duplicate ACK). -/
theorem claim_C1_amended (now : ℕ) (s : SState) (b : ℕ) :
    b ∉ (handleAck now s b).pendingAcks ∧
    (∀ i ∈ s.pendingAcks, i ≠ b → i ∈ (handleAck now s b).pendingAcks) ∧
    (∀ t, s.sendTimes.lookup b = some t →
      (handleAck now s b).averageRtt = updateAverageRtt s.averageRtt (now - t)) ∧
    (s.sendTimes.lookup b = none → (handleAck now s b).averageRtt = s.averageRtt) := by
  unfold handleAck
  cases h : s.sendTimes.lookup b with
  | none =>
    refine ⟨by simp, ?_, ?_, ?_⟩
    · intro i hi hne
      simpa [Finset.mem_erase] using And.intro hne hi
    · intro t ht
      exact Option.noConfusion ht
    · intro _
      rfl
  | some t =>
    refine ⟨by simp, ?_, ?_, ?_⟩
    · intro i hi hne
      simpa [Finset.mem_erase] using And.intro hne hi
    · intro t' ht
      injection ht with ht'
      subst ht'
      rfl
    · intro ht
      exact Option.noConfusion ht

/-- C1 witness: on the one-in-flight state `sC1w`, handling ACK(1) at
`now = 5` removes block 1, keeps block 0 pending, and feeds the 3 ns sample
into the RTT EWMA. -/
theorem witness_C1 :
    (1 : ℕ) ∉ (handleAck 5 sC1w 1).pendingAcks ∧
    ((0 : ℕ) ∈ sC1w.pendingAcks ∧ (0 : ℕ) ≠ 1 ∧
      (0 : ℕ) ∈ (handleAck 5 sC1w 1).pendingAcks) ∧
    (sC1w.sendTimes.lookup 1 = some 2 ∧
      (handleAck 5 sC1w 1).averageRtt = updateAverageRtt sC1w.averageRtt (5 - 2)) := by
  have h := claim_C1_amended 5 sC1w 1
  exact ⟨h.1, ⟨by decide, by decide, h.2.1 0 (by decide) (by decide)⟩,
         ⟨by decide, h.2.2.1 2 (by decide)⟩⟩

/-- C8 as amended: client-role initialization makes exactly one receive
attempt — it consumes a single receive outcome, succeeds if and only if that
outcome is an ACK, and otherwise immediately fails with `InvalidData`; the
source's MAX_ATTEMPTS (client.rs line 17) is 4 and is never consulted by
`init`. -/
theorem claim_C8_amended (r : RecvOutcome) (rest : List RecvOutcome) :
    (clientInitO (r :: rest)).2 = rest ∧
    ((clientInitO (r :: rest)).1 = InitResult.proceeds ↔ ∃ b, r = RecvOutcome.ack b) ∧
    MAX_ATTEMPTS = 4 := by
  refine ⟨rfl, ?_, rfl⟩
  cases r <;> simp [clientInitO, clientInit]

/-- C8 witness: with a single-element oracle delivering ACK(0) on the first
attempt, initialization proceeds and consumes exactly that outcome. -/
theorem witness_C8 :
    (clientInitO [RecvOutcome.ack 0]).2 = [] ∧
    (clientInitO [RecvOutcome.ack 0]).1 = InitResult.proceeds ∧
    MAX_ATTEMPTS = 4 := by
  have h := claim_C8_amended (RecvOutcome.ack 0) []
  exact ⟨h.1, h.2.1.mpr ⟨0, rfl⟩, h.2.2⟩

/-- When a `poll` call reaches its receive (termination branch not taken,
total timeout not expired), it equals `pollRecv` on the consec-updated
state. -/
theorem pollStep_reaches (s : RState) (ev : REvent) (gap t : ℕ)
    (h : reachesReceive s t = true) :
    pollStep s ev gap t =
      pollRecv { s with consecRecv := consecUpdate s.received s.consecRecv } ev gap t := by
  have h' := h
  unfold reachesReceive at h'
  rw [Bool.and_eq_true] at h'
  obtain ⟨h1, _⟩ := h'
  unfold pollStep
  cases hr : s.receivedLastBlock with
  | false => simp [hr]
  | true =>
    rw [hr] at h1
    simp only [if_true] at h1
    cases hh : s.highestBlock with
    | none =>
      rw [hh] at h1
      exact absurd h1 (by simp)
    | some hb =>
      rw [hh] at h1
      simp only [Bool.not_eq_true'] at h1
      simp [hr, hh, h1]

/-- C2 as amended: processing a DATA packet emits no ACK in that poll call
(the packet is recorded and the call returns `NotReady`); the receiver sends
the cumulative ACK(consec_recv) only when a receive attempt fails with
`TimedOut`/`WouldBlock` (and only if `consec_recv` is defined) — besides the
4 final ACKs of the termination branch. -/
theorem claim_C2_amended (s : RState) (bn pl gap t : ℕ)
    (h : reachesReceive s t = true) :
    (pollStep s (REvent.data bn pl) gap t).acks = [] ∧
    (pollStep s (REvent.data bn pl) gap t).outcome = ROutcome.notReady ∧
    (pollStep s (REvent.data bn pl) gap t).state.received = insert bn s.received ∧
    (pollStep s REvent.timeoutErr gap t).acks =
      (consecUpdate s.received s.consecRecv).elim [] (fun k => [k]) := by
  have ht : ¬ TOTAL_TIMEOUT < t := by
    have h' := h
    unfold reachesReceive at h'
    rw [Bool.and_eq_true] at h'
    have := h'.2
    simp only [decide_eq_true_eq] at this
    omega
  rw [pollStep_reaches s (REvent.data bn pl) gap t h,
      pollStep_reaches s REvent.timeoutErr gap t h]
  refine ⟨?_, ?_, ?_, ?_⟩
  · simp [pollRecv, ht]
  · simp [pollRecv, ht]
  · simp [pollRecv, ht, handleData]
  · unfold pollRecv
    rw [if_neg ht]
    cases hc : consecUpdate s.received s.consecRecv with
    | none =>
      simp only [hc, Option.elim]
      split <;> rfl
    | some k =>
      simp only [hc, Option.elim]
      split <;> rfl

/-- C2 witness: on the fresh receiver with no elapsed time, a DATA(0) packet
is processed without any ACK, and a subsequent timeout (with block 0 now
received) re-ACKs the cumulative position 0. -/
theorem witness_C2 :
    reachesReceive initialRState 0 = true ∧
    (pollStep initialRState (REvent.data 0 5) 0 0).outcome = ROutcome.notReady ∧
    (pollStep initialRState REvent.timeoutErr 0 0).acks =
      (consecUpdate initialRState.received initialRState.consecRecv).elim []
        (fun k => [k]) := by
  have h := claim_C2_amended initialRState 0 5 0 0 (by decide)
  exact ⟨by decide, h.2.1, h.2.2.2⟩

/-- `n & 511 = n % 512` — the bit test the source uses in `num_blocks`. -/
theorem land_511 (n : ℕ) : n &&& 511 = n % 512 := by
  have h := Nat.and_pow_two_sub_one_eq_mod n 9
  norm_num at h
  exact h

/-- `num_blocks` in remainder form. -/
theorem numBlocks_eq (L : ℕ) :
    numBlocks L = L / 512 + (if L % 512 = 0 then 0 else 1) := by
  unfold numBlocks MAX_DATA_LEN
  norm_num [land_511]

/-- `num_blocks` is the ceiling of `file_len / 512`. -/
theorem numBlocks_ceil (L : ℕ) : numBlocks L = (L + 511) / 512 := by
  rw [numBlocks_eq]
  split <;> omega

theorem filterMap_range_eq_map {α : Type} (f : ℕ → Option α) (g : ℕ → α) :
    ∀ n, (∀ i, i < n → f i = some (g i)) →
      (List.range n).filterMap f = (List.range n).map g := by
  intro n
  induction n with
  | zero => intro _; simp
  | succ k ih =>
    intro h
    rw [List.range_succ, List.filterMap_append, List.map_append,
        ih (fun i hi => h i (by omega))]
    simp [h k (by omega)]

/-- `next_block` below `num_blocks` produces the 512-byte slice at offset
`i · 512` (shorter for the final partial block — but a `take 512` of the
remaining bytes captures both branches of `get_block_n`, since the tail of
the last block has at most 512 bytes). -/
theorem nextBlockAt_lt (file : List ℕ) (i : ℕ) (h : i < numBlocks file.length) :
    nextBlockAt file i =
      some ⟨i, (file.drop (i * MAX_DATA_LEN)).take MAX_DATA_LEN⟩ := by
  have hnot : ¬ i ≥ numBlocks file.length := by omega
  unfold nextBlockAt getBlockN
  rw [if_pos h]
  simp only [ge_iff_le]
  rw [if_neg (by omega)]
  by_cases hl : i = numBlocks file.length - 1
  · rw [if_pos hl]
    have hlen : (file.drop (i * MAX_DATA_LEN)).length =
        file.length - i * MAX_DATA_LEN := by
      simp
    have hle : file.length - i * MAX_DATA_LEN ≤ MAX_DATA_LEN := by
      have hnb := numBlocks_eq file.length
      unfold MAX_DATA_LEN
      by_cases hr : file.length % 512 = 0 <;> simp [hr] at hnb <;> omega
    rw [List.take_of_length_le (by omega), List.take_of_length_le (by omega)]
  · rw [if_neg hl]

/-- `next_block` at index `num_blocks` produces the empty terminator exactly
when the file length is a multiple of 512. -/
theorem nextBlockAt_numB (file : List ℕ) :
    nextBlockAt file (numBlocks file.length) =
      if 512 ∣ file.length then some ⟨numBlocks file.length, []⟩ else none := by
  unfold nextBlockAt
  rw [if_neg (lt_irrefl _)]
  have hnb := numBlocks_eq file.length
  by_cases hd : 512 ∣ file.length
  · have hr : file.length % 512 = 0 := by omega
    rw [if_pos hd, if_pos]
    refine ⟨rfl, ?_⟩
    unfold MAX_DATA_LEN
    simp [hr] at hnb
    omega
  · have hr : ¬ file.length % 512 = 0 := by omega
    rw [if_neg hd, if_neg]
    intro ⟨_, hcon⟩
    unfold MAX_DATA_LEN at hcon
    simp [hr] at hnb
    omega

set_option maxRecDepth 4096 in
/-- C4: block production yields `num_blocks = ceil(file_len / 512)` DATA
blocks whose payloads are the 512-byte slices at offsets `i · 512`, plus one
extra empty terminator block exactly when `file_len` is a multiple of 512;
in particular one empty DATA for the empty file, a full block plus an empty
terminator for 512 bytes, and a 512-byte plus a 1-byte block for 513
bytes. -/
theorem claim_C4 :
    (∀ file : List ℕ,
      numBlocks file.length = (file.length + 511) / 512 ∧
      producedBlocks file =
        (List.range (numBlocks file.length)).map
          (fun i => ⟨i, (file.drop (i * MAX_DATA_LEN)).take MAX_DATA_LEN⟩) ++
        (if 512 ∣ file.length then [⟨numBlocks file.length, []⟩] else [])) ∧
    producedBlocks [] = [⟨0, []⟩] ∧
    producedBlocks (List.replicate 512 7) = [⟨0, List.replicate 512 7⟩, ⟨1, []⟩] ∧
    producedBlocks (List.replicate 513 7) = [⟨0, List.replicate 512 7⟩, ⟨1, [7]⟩] := by
  refine ⟨?_, by decide, by decide, by decide⟩
  intro file
  refine ⟨numBlocks_ceil _, ?_⟩
  unfold producedBlocks
  rw [List.range_succ, List.filterMap_append,
      filterMap_range_eq_map _ _ _ (fun i hi => nextBlockAt_lt file i hi)]
  congr 1
  by_cases hd : 512 ∣ file.length
  · rw [List.filterMap_cons, nextBlockAt_numB, if_pos hd, if_pos hd]
    simp
  · rw [List.filterMap_cons, nextBlockAt_numB, if_neg hd, if_neg hd]
    simp

/-- Folding `handle_ack` over a list of ACKs erases exactly those block
indices from `pending_acks` and never touches `try_again`. -/
theorem foldl_handleAck (now : ℕ) :
    ∀ (l : List ℕ) (s : SState),
      (l.foldl (handleAck now) s).pendingAcks =
        l.foldl (fun p b => p.erase b) s.pendingAcks ∧
      (l.foldl (handleAck now) s).tryAgain = s.tryAgain := by
  intro l
  induction l with
  | nil => intro s; exact ⟨rfl, rfl⟩
  | cons b l ih =>
    intro s
    simp only [List.foldl_cons]
    have h := ih (handleAck now s b)
    have hp : (handleAck now s b).pendingAcks = s.pendingAcks.erase b := by
      unfold handleAck
      cases hl : s.sendTimes.lookup b <;> simp
    have hta : (handleAck now s b).tryAgain = s.tryAgain := by
      unfold handleAck
      cases hl : s.sendTimes.lookup b <;> simp
    exact ⟨by rw [h.1, hp], by rw [h.2, hta]⟩

theorem foldl_erase_sdiff :
    ∀ (l : List ℕ) (p : Finset ℕ),
      l.foldl (fun q b => q.erase b) p = p \ l.toFinset := by
  intro l
  induction l with
  | nil => intro p; simp
  | cons b l ih =>
    intro p
    simp only [List.foldl_cons, ih, List.toFinset_cons]
    ext x
    simp only [Finset.mem_sdiff, Finset.mem_erase, Finset.mem_insert,
               List.mem_toFinset]
    tauto

theorem listRange_toFinset (n : ℕ) : (List.range n).toFinset = Finset.range n := by
  ext x
  simp

/-- C10: for a file whose length is a multiple of 512, the empty terminator
block carries index `num_blocks`; that index lies outside the initial
pending-ACK set `{0, …, num_blocks−1}` (the bit set is sized `num_blocks`),
and after ACKs for blocks `0 … num_blocks−1` alone the engine's Ready
condition (`pending_acks` empty, nothing queued for retry) holds — no ACK
for the terminator is ever needed. -/
theorem claim_C10 (file : List ℕ) (h : 512 ∣ file.length) :
    nextBlockAt file (numBlocks file.length) =
      some ⟨numBlocks file.length, []⟩ ∧
    numBlocks file.length ∉ initialPending (numBlocks file.length) ∧
    sendReady ((List.range (numBlocks file.length)).foldl (handleAck 0)
      (initialSState (numBlocks file.length))) = true ∧
    numBlocks file.length ∉ List.range (numBlocks file.length) := by
  refine ⟨?_, ?_, ?_, ?_⟩
  · rw [nextBlockAt_numB, if_pos h]
  · simp [initialPending]
  · have hfold := foldl_handleAck 0 (List.range (numBlocks file.length))
      (initialSState (numBlocks file.length))
    have hpend : ((List.range (numBlocks file.length)).foldl (handleAck 0)
        (initialSState (numBlocks file.length))).pendingAcks = ∅ := by
      rw [hfold.1, foldl_erase_sdiff, listRange_toFinset]
      simp [initialSState, initialPending]
    unfold sendReady
    rw [hpend, hfold.2]
    rfl
  · simp

set_option maxRecDepth 4096 in
/-- C10 witness: the 512-byte file. -/
theorem witness_C10 :
    (512 ∣ (List.replicate 512 (0 : ℕ)).length) ∧
    nextBlockAt (List.replicate 512 (0 : ℕ))
        (numBlocks (List.replicate 512 (0 : ℕ)).length) =
      some ⟨numBlocks (List.replicate 512 (0 : ℕ)).length, []⟩ ∧
    sendReady ((List.range (numBlocks (List.replicate 512 (0 : ℕ)).length)).foldl
      (handleAck 0)
      (initialSState (numBlocks (List.replicate 512 (0 : ℕ)).length))) = true := by
  have h := claim_C10 (List.replicate 512 0) (by simp)
  exact ⟨by simp, h.1, h.2.2.1⟩

/-- The filename scan consumes a null-free prefix up to its terminator. -/
theorem fnLoop_spec (src : List ℕ) (fn : List ℕ) (hfn : (0 : ℕ) ∉ fn) :
    ∀ (acc rest : List ℕ),
      fnLoop src acc (fn ++ 0 :: rest) = DecodeResult.ok (acc.reverse ++ fn, rest) := by
  induction fn with
  | nil =>
    intro acc rest
    simp [fnLoop]
  | cons b fn ih =>
    intro acc rest
    have hb : ¬ b = 0 := fun hb => hfn (by simp [hb])
    have hfn' : (0 : ℕ) ∉ fn := fun hm => hfn (List.mem_cons_of_mem _ hm)
    have hne : ¬ fn ++ 0 :: rest = [] := by simp
    rw [List.cons_append, fnLoop, if_neg hb, if_neg hne, ih hfn' (b :: acc) rest]
    simp

/-- The mode scan consumes a null-free string up to its terminator. -/
theorem modeLoop_spec (src : List ℕ) (mb : List ℕ) (hmb : (0 : ℕ) ∉ mb) :
    ∀ acc : List ℕ, modeLoop src acc (mb ++ [0]) = DecodeResult.ok (acc.reverse ++ mb) := by
  induction mb with
  | nil =>
    intro acc
    simp [modeLoop]
  | cons b mb ih =>
    intro acc
    have hb : ¬ b = 0 := fun hb => hmb (by simp [hb])
    have hmb' : (0 : ℕ) ∉ mb := fun hm => hmb (List.mem_cons_of_mem _ hm)
    rw [List.cons_append, modeLoop, if_neg hb, ih hmb' (b :: acc)]
    simp

/-- The error-message scan consumes a null-free string up to its
terminator. -/
theorem errLoop_spec (msg : List ℕ) (hmsg : (0 : ℕ) ∉ msg) :
    ∀ acc : List ℕ, errLoop acc (msg ++ [0]) = DecodeResult.ok (acc.reverse ++ msg) := by
  induction msg with
  | nil =>
    intro acc
    simp [errLoop]
  | cons b msg ih =>
    intro acc
    have hb : ¬ b = 0 := fun hb => hmsg (by simp [hb])
    have hmsg' : (0 : ℕ) ∉ msg := fun hm => hmsg (List.mem_cons_of_mem _ hm)
    rw [List.cons_append, errLoop, if_neg hb, ih hmsg' (b :: acc)]
    simp

/-- Decoding inverts encoding for RRQ/WRQ headers with a non-empty,
null-free, UTF-8-valid filename. -/
theorem rw_roundtrip (op : ℕ) (h : RWHeaderP) (h1 : h.filename ≠ [])
    (h2 : (0 : ℕ) ∉ h.filename) (h3 : validUtf8 h.filename = true) :
    rwFromRaw op (rwIntoRaw op h) = DecodeResult.ok h := by
  obtain ⟨fn, mode⟩ := h
  simp only at h1 h2 h3
  cases fn with
  | nil => exact absurd rfl h1
  | cons f0 fn' =>
    have hf0 : ¬ f0 = 0 := fun hf => h2 (by simp [hf])
    have hm4 : 4 ≤ (rwModeBytes mode).length := by cases mode <;> simp [rwModeBytes]
    have hm0 : (0 : ℕ) ∉ rwModeBytes mode := by cases mode <;> decide
    have hmutf : validUtf8 (rwModeBytes mode) = true := by cases mode <;> decide
    have hmode : rwModeFromBytes (rwModeBytes mode) = some mode := by
      cases mode <;> decide
    unfold rwIntoRaw rwFromRaw
    have hlen : ¬ (0 :: op :: ((f0 :: fn') ++ 0 :: (rwModeBytes mode ++ [0]))).length < 6 := by
      simp only [List.length_cons, List.length_append]
      omega
    rw [if_neg hlen]
    have hgd : (0 :: op :: ((f0 :: fn') ++ 0 :: (rwModeBytes mode ++ [0]))).getD 2 0 = f0 := by
      simp
    rw [hgd, if_neg hf0]
    have hdrop : (0 :: op :: ((f0 :: fn') ++ 0 :: (rwModeBytes mode ++ [0]))).drop 2 =
        (f0 :: fn') ++ 0 :: (rwModeBytes mode ++ [0]) := rfl
    rw [hdrop, fnLoop_spec _ _ h2 [] (rwModeBytes mode ++ [0])]
    simp only [List.reverse_nil, List.nil_append]
    rw [modeLoop_spec _ _ hm0 []]
    simp only [List.reverse_nil, List.nil_append]
    rw [if_neg (by omega), if_neg (by rw [h3]; simp), if_neg (by rw [hmutf]; simp),
        hmode]

/-- Reassembling the three 24-bit block-number bytes recovers the block
number. -/
theorem beBlockNumber_split (bn : ℕ) (h : bn < 2 ^ 24) :
    beBlockNumber ((bn >>> 16) % 256) ((bn >>> 8) % 256) (bn % 256) = bn := by
  unfold beBlockNumber
  rw [Nat.shiftRight_eq_div_pow, Nat.shiftRight_eq_div_pow]
  norm_num at h ⊢
  omega

/-- Decoding inverts encoding for DATA headers whose buffer is a 512-byte
zero-padded payload and whose block number fits in 24 bits. -/
theorem data_roundtrip (h : DataHeaderP) (h1 : h.dataLen ≤ MAX_DATA_LEN)
    (h2 : h.data.length = MAX_DATA_LEN)
    (h3 : h.data.drop h.dataLen = List.replicate (MAX_DATA_LEN - h.dataLen) 0)
    (h4 : h.blockNumber < 2 ^ 24) :
    dataFromRaw (dataIntoRaw h) = DecodeResult.ok h := by
  obtain ⟨data, dlen, bn⟩ := h
  simp only at h1 h2 h3 h4
  have htl : (data.take dlen).length = dlen := by
    rw [List.length_take, h2]
    exact Nat.min_eq_left h1
  unfold dataIntoRaw dataFromRaw
  simp only [List.length_cons, htl, List.getD_cons_zero, List.getD_cons_succ]
  rw [if_neg (by omega)]
  have hsub : dlen + 1 + 1 + 1 + 1 - 4 = dlen := by omega
  have hmin : min dlen MAX_DATA_LEN = dlen := Nat.min_eq_left h1
  have hdrop4 : List.drop 4
      ((bn >>> 16) % 256 :: OPCODE_DATA :: (bn >>> 8) % 256 :: bn % 256 ::
        data.take dlen) = data.take dlen := rfl
  rw [hsub, hmin, hdrop4, List.take_of_length_le (le_of_eq htl),
      beBlockNumber_split bn h4, ← h3, List.take_append_drop]

/-- Decoding inverts encoding for ACK headers with a 24-bit block number. -/
theorem ack_roundtrip (a : AckHeaderP) (h : a.blockNumber < 2 ^ 24) :
    ackFromRaw (ackIntoRaw a) = DecodeResult.ok a := by
  obtain ⟨bn⟩ := a
  simp only at h
  unfold ackIntoRaw ackFromRaw
  simp only [List.length_cons, List.getD_cons_zero, List.getD_cons_succ]
  rw [if_neg (by simp), beBlockNumber_split bn h]

/-- The `u16` round trip on `ErrorCode` is the identity. -/
theorem errorCode_ofU16_toNat (c : ErrorCode) : ErrorCode.ofU16 c.toNat = c := by
  cases c <;> rfl

/-- Decoding inverts encoding for ERROR headers with a null-free,
UTF-8-valid message. -/
theorem error_roundtrip (e : ErrorHeaderP) (h1 : (0 : ℕ) ∉ e.errorMessage)
    (h2 : validUtf8 e.errorMessage = true) :
    errorFromRaw (errorIntoRaw e) = DecodeResult.ok e := by
  obtain ⟨code, msg⟩ := e
  simp only at h1 h2
  have hhi : (code.toNat >>> 8) % 256 = 0 := by cases code <;> decide
  have hlo : code.toNat % 256 = code.toNat := by cases code <;> decide
  unfold errorIntoRaw errorFromRaw
  simp only [List.length_cons, List.getD_cons_zero, List.getD_cons_succ, hhi, hlo]
  rw [if_neg (by simp [List.length_append])]
  have hdrop4 : List.drop 4
      (0 :: OPCODE_ERROR :: 0 :: code.toNat :: (msg ++ [0])) = msg ++ [0] := rfl
  rw [hdrop4, errLoop_spec msg h1 []]
  simp only [List.reverse_nil, List.nil_append]
  rw [h2]
  simp only [if_true]
  have hcode : ErrorCode.ofU16 (0 * 256 + code.toNat) = code := by
    rw [Nat.zero_mul, Nat.zero_add]
    exact errorCode_ofU16_toNat code
  rw [hcode]

/-- C5: encoding then decoding is the identity on every valid packet kind —
RRQ and WRQ with a non-empty null-free (UTF-8) filename and a recognized
mode, DATA with a zero-padded payload of at most 512 bytes and a 24-bit
block number, ACK with a 24-bit block number, and ERROR with a null-free
(UTF-8) message; the only normalization is on raw error codes, where every
value at or above 8 decodes to `Undefined` (code 0). -/
theorem claim_C5 :
    (∀ h : RWHeaderP, h.filename ≠ [] → (0 : ℕ) ∉ h.filename →
      validUtf8 h.filename = true →
      rwFromRaw OPCODE_RRQ (rwIntoRaw OPCODE_RRQ h) = DecodeResult.ok h ∧
      rwFromRaw OPCODE_WRQ (rwIntoRaw OPCODE_WRQ h) = DecodeResult.ok h) ∧
    (∀ h : DataHeaderP, h.dataLen ≤ MAX_DATA_LEN → h.data.length = MAX_DATA_LEN →
      h.data.drop h.dataLen = List.replicate (MAX_DATA_LEN - h.dataLen) 0 →
      h.blockNumber < 2 ^ 24 →
      dataFromRaw (dataIntoRaw h) = DecodeResult.ok h) ∧
    (∀ a : AckHeaderP, a.blockNumber < 2 ^ 24 →
      ackFromRaw (ackIntoRaw a) = DecodeResult.ok a) ∧
    (∀ e : ErrorHeaderP, (0 : ℕ) ∉ e.errorMessage →
      validUtf8 e.errorMessage = true →
      errorFromRaw (errorIntoRaw e) = DecodeResult.ok e) ∧
    (∀ n : ℕ, 8 ≤ n → ErrorCode.ofU16 n = ErrorCode.Undefined) := by
  refine ⟨?_, data_roundtrip, ack_roundtrip, error_roundtrip, ?_⟩
  · intro h h1 h2 h3
    exact ⟨rw_roundtrip OPCODE_RRQ h h1 h2 h3, rw_roundtrip OPCODE_WRQ h h1 h2 h3⟩
  · intro n hn
    obtain ⟨m, rfl⟩ : ∃ m, n = m + 8 := ⟨n - 8, by omega⟩
    rfl

set_option maxRecDepth 8192 in
/-- C5 witness: concrete round trips — RRQ("a", octet), DATA(block 70000,
payload [1,2,3]), ACK(5), ERROR(FileNotFound, "hi"), and the code-9
normalization. -/
theorem witness_C5 :
    rwFromRaw OPCODE_RRQ (rwIntoRaw OPCODE_RRQ ⟨[97], RWMode.Octet⟩) =
      DecodeResult.ok ⟨[97], RWMode.Octet⟩ ∧
    dataFromRaw (dataIntoRaw (dataHeaderNew [1, 2, 3] 70000)) =
      DecodeResult.ok (dataHeaderNew [1, 2, 3] 70000) ∧
    ackFromRaw (ackIntoRaw ⟨5⟩) = DecodeResult.ok ⟨5⟩ ∧
    errorFromRaw (errorIntoRaw ⟨ErrorCode.FileNotFound, [104, 105]⟩) =
      DecodeResult.ok ⟨ErrorCode.FileNotFound, [104, 105]⟩ ∧
    ErrorCode.ofU16 9 = ErrorCode.Undefined := by
  refine ⟨(claim_C5.1 ⟨[97], RWMode.Octet⟩ (by decide) (by decide) (by decide)).1,
          claim_C5.2.1 (dataHeaderNew [1, 2, 3] 70000) (by decide) (by decide)
            (by decide) (by decide),
          claim_C5.2.2.1 ⟨5⟩ (by decide),
          claim_C5.2.2.2.1 ⟨ErrorCode.FileNotFound, [104, 105]⟩ (by decide) (by decide),
          claim_C5.2.2.2.2 9 (by omega)⟩

end Tftp
